import Mathlib

/-!
Verification development for an e-commerce backend (products, orders, reviews,
admin authorization) backed by a document store and a read-through key-value
cache with TTL.  The definitions below are a shallow embedding of the request
handlers in `src/backend/src/controllers/order.ts`,
`src/backend/dist/controllers/product.js` and the admin middleware, with the
document store and the cache modelled as explicit state threaded through each
handler.  JSON serialization (`JSON.stringify` / `JSON.parse`) is lossless on
the plain data trees the handlers cache, so a cache entry is modelled as the
parsed JSON tree together with the TTL it was stored with.
-/

namespace ECom

/-- JSON values: the shape of every serialized payload the handlers cache and
return.  `num` carries a rational, covering the numeric fields used. -/
inductive Json where
  | null : Json
  | bool : Bool → Json
  | num : Rat → Json
  | str : String → Json
  | arr : List Json → Json
  | obj : List (String × Json) → Json

/-- The redis cache: an association list from key to payload and the TTL the
entry was stored with.  Later entries shadowed by `setex` are removed. -/
abbrev Cache := List (String × Json × Nat)

/-- `redis.get key`, returning just the payload. -/
def cacheGet (c : Cache) (k : String) : Option Json :=
  match c.find? (fun e => e.1 == k) with
  | some e => some e.2.1
  | none => none

/-- Lookup returning the payload together with its TTL. -/
def cacheLookup (c : Cache) (k : String) : Option (Json × Nat) :=
  match c.find? (fun e => e.1 == k) with
  | some e => some e.2
  | none => none

/-- `redis.setex key ttl value`. -/
def setex (c : Cache) (k : String) (ttl : Nat) (v : Json) : Cache :=
  (k, v, ttl) :: c.filter (fun e => e.1 != k)

/-- Order status enum of the mongoose schema: Processing, Shipped, Delivered. -/
inductive Status where
  | Processing : Status
  | Shipped : Status
  | Delivered : Status
deriving DecidableEq

/-- String stored for a status in the document / its JSON form. -/
def Status.str : Status → String
  | .Processing => "Processing"
  | .Shipped => "Shipped"
  | .Delivered => "Delivered"

/-- Position of a status along the one-directional pipeline. -/
def Status.rank : Status → Nat
  | .Processing => 0
  | .Shipped => 1
  | .Delivered => 2

/-- The status transition applied by `processOrder`
(src/backend/src/controllers/order.ts lines 128-138): a switch sending
Processing to Shipped, Shipped to Delivered, and everything else (the default
branch, which covers Delivered) to Delivered. -/
def processStatus : Status → Status
  | .Processing => .Shipped
  | .Shipped => .Delivered
  | .Delivered => .Delivered

structure OrderItem where
  productId : String
  quantity : Nat
deriving DecidableEq

structure ShippingInfo where
  address : String
  city : String
  state : String
  country : String
  pinCode : Nat
deriving DecidableEq

structure Order where
  _id : String
  user : String
  subtotal : Rat
  tax : Rat
  shippingCharges : Rat
  discount : Rat
  total : Rat
  status : Status
  shippingInfo : ShippingInfo
  orderItems : List OrderItem
deriving DecidableEq

structure Photo where
  url : String
  public_id : String
deriving DecidableEq

structure Product where
  _id : String
  name : String
  price : Rat
  stock : Rat
  category : String
  description : String
  photos : List Photo
  ratings : Rat
  numOfReviews : Nat
deriving DecidableEq

structure Review where
  _id : String
  comment : String
  rating : Rat
  user : String
  product : String
deriving DecidableEq

structure User where
  _id : String
  name : String
  role : String
deriving DecidableEq

/-- The document store: the four collections the handlers touch. -/
structure Store where
  orders : List Order
  products : List Product
  reviews : List Review
  users : List User
deriving DecidableEq

def Order.findByUser (s : Store) (uid : String) : List Order :=
  s.orders.filter (fun o => o.user == uid)

def Order.findById (s : Store) (id : String) : Option Order :=
  s.orders.find? (fun o => o._id == id)

def Product.findById (s : Store) (id : String) : Option Product :=
  s.products.find? (fun p => p._id == id)

def User.findById (s : Store) (id : String) : Option User :=
  s.users.find? (fun u => u._id == id)

/-! JSON encodings of the entities, as `JSON.stringify` lays them out when a
handler caches a store result. -/

def OrderItem.toJson (i : OrderItem) : Json :=
  .obj [("productId", .str i.productId), ("quantity", .num i.quantity)]

def ShippingInfo.toJson (s : ShippingInfo) : Json :=
  .obj [("address", .str s.address), ("city", .str s.city), ("state", .str s.state),
        ("country", .str s.country), ("pinCode", .num s.pinCode)]

def Order.toJson (o : Order) : Json :=
  .obj [("_id", .str o._id), ("user", .str o.user), ("subtotal", .num o.subtotal),
        ("tax", .num o.tax), ("shippingCharges", .num o.shippingCharges),
        ("discount", .num o.discount), ("total", .num o.total),
        ("status", .str o.status.str), ("shippingInfo", o.shippingInfo.toJson),
        ("orderItems", .arr (o.orderItems.map OrderItem.toJson))]

def encodeOrders (os : List Order) : Json :=
  .arr (os.map Order.toJson)

def Photo.toJson (p : Photo) : Json :=
  .obj [("url", .str p.url), ("public_id", .str p.public_id)]

def Product.toJson (p : Product) : Json :=
  .obj [("_id", .str p._id), ("name", .str p.name), ("price", .num p.price),
        ("stock", .num p.stock), ("category", .str p.category),
        ("description", .str p.description),
        ("photos", .arr (p.photos.map Photo.toJson)),
        ("ratings", .num p.ratings), ("numOfReviews", .num p.numOfReviews)]

/-- Outcome of a handler: a JSON success envelope with an HTTP status, or an
`ErrorHandler(message, status)` forwarded to the error middleware. -/
inductive HResult where
  | ok : Nat → Json → HResult
  | err : Nat → String → HResult

/-- Outcome of a middleware: forward an error, or call the next handler. -/
inductive MWResult where
  | err : Nat → String → MWResult
  | next : MWResult
deriving DecidableEq

/-! Cache key builders, as interpolated in the handlers. -/

/-- Little-endian decimal digits of `n`; the `fuel` argument only bounds the
recursion depth, and any `fuel ≥ n` is enough. -/
def natDigitsRev (fuel n : Nat) : List Nat :=
  match fuel with
  | 0 => []
  | f + 1 => if n = 0 then [] else n % 10 :: natDigitsRev f (n / 10)

/-- Decimal rendering of the page number, as interpolating a JS integer into a
template literal renders it. -/
def natStr (n : Nat) : String :=
  if n = 0 then "0" else String.mk ((natDigitsRev n n).reverse.map Nat.digitChar)

/-- Key for `myOrders`: `my-orders-${userId}`. -/
def myOrdersKey (userId : String) : String := "my-orders-" ++ userId

/-- Key for `getSingleProduct`: `product-${id}`. -/
def productKey (id : String) : String := "product-" ++ id

/-- Key for `getSingleOrder`: `order-${id}`. -/
def orderKey (id : String) : String := "order-" ++ id

/-- Key for `getAllProducts`
(src/backend/dist/controllers/product.js line 145):
`products-${search}-${sort}-${category}-${price}-${page}`. -/
def productsKey (search sort category price : String) (page : Nat) : String :=
  "products-" ++ search ++ "-" ++ sort ++ "-" ++ category ++ "-" ++ price ++ "-"
    ++ natStr page

/-- The standard success envelope a read endpoint returns for one field. -/
def envelope (field : String) (v : Json) : Json :=
  .obj [("success", .bool true), (field, v)]

/-- Embeds `myOrders` (src/backend/src/controllers/order.ts lines 15-36).
`userId` is `req.query.id`: absent, or a string which JS treats as falsy when
empty.  `redisTTL` is the configured TTL imported from app.ts. -/
def myOrders (cache : Cache) (store : Store) (redisTTL : Nat) (userId : Option String) :
    HResult × Cache :=
  match userId with
  | none => (.err 400 "Invalid user ID", cache)
  | some uid =>
    if uid = "" then (.err 400 "Invalid user ID", cache)
    else
      let key := myOrdersKey uid
      match cacheGet cache key with
      | some j => (.ok 200 (envelope "orders" j), cache)
      | none =>
        let orders := Order.findByUser store uid
        (.ok 200 (envelope "orders" (encodeOrders orders)),
          setex cache key redisTTL (encodeOrders orders))

/-- Embeds `getSingleOrder` (src/backend/src/controllers/order.ts lines 58-81).
The `populate("user", "name")` store-side join only changes the shape of the
user field inside the payload and is not modelled. -/
def getSingleOrder (cache : Cache) (store : Store) (redisTTL : Nat) (id : String) :
    HResult × Cache :=
  if id = "" then (.err 400 "Order ID is required", cache)
  else
    let key := orderKey id
    match cacheGet cache key with
    | some j => (.ok 200 (envelope "order" j), cache)
    | none =>
      match Order.findById store id with
      | none => (.err 404 "Order not found", cache)
      | some o =>
        (.ok 200 (envelope "order" o.toJson), setex cache key redisTTL o.toJson)

/-- Embeds `getSingleProduct` (src/backend/dist/controllers/product.js lines
51-68).  There is no falsiness check on the id param in this handler. -/
def getSingleProduct (cache : Cache) (store : Store) (redisTTL : Nat) (id : String) :
    HResult × Cache :=
  let key := productKey id
  match cacheGet cache key with
  | some j => (.ok 200 (envelope "product" j), cache)
  | none =>
    match Product.findById store id with
    | none => (.err 404 "Product Not Found", cache)
    | some p =>
      (.ok 200 (envelope "product" p.toJson), setex cache key redisTTL p.toJson)

/-- Embeds the `adminOnly` middleware (src/unnamed/part_000 lines 7-18).
`idQ` is `req.query.id`; JS treats a missing id and the empty string alike as
falsy in `if (!id)`. -/
def adminOnly (store : Store) (idQ : Option String) : MWResult :=
  match idQ with
  | none => .err 401 "Please log in first"
  | some i =>
    if i = "" then .err 401 "Please log in first"
    else
      match User.findById store i with
      | none => .err 401 "Invalid ID provided"
      | some u =>
        if u.role != "admin" then .err 403 "You do not have admin privileges"
        else .next

/-- Request body of `newOrder`, each field optional as JS destructuring leaves
it; `user` is the user id string. -/
structure NewOrderBody where
  shippingInfo : Option ShippingInfo
  orderItems : Option (List OrderItem)
  user : Option String
  subtotal : Option Rat
  tax : Option Rat
  shippingCharges : Option Rat
  discount : Option Rat
  total : Option Rat
deriving DecidableEq

/-- JS truthiness of an optional number: absent, or zero, is falsy. -/
def truthyNum : Option Rat → Bool
  | none => false
  | some q => q != 0

/-- JS truthiness of an optional string: absent, or empty, is falsy. -/
def truthyStr : Option String → Bool
  | none => false
  | some s => s != ""

/-- JS truthiness of an optional object or array: any present value is truthy
(an empty array is truthy in JS). -/
def truthyObj {α : Type} : Option α → Bool
  | none => false
  | some _ => true

/-- Embeds `newOrder` (src/backend/src/controllers/order.ts lines 84-115).
The guard is `if (!shippingInfo || !orderItems || !user || !subtotal || !tax
|| !total)`.  On success the order is created with schema defaults: status
Processing, and 0 for the unchecked optional charges.  The `reduceStock` and
`invalidateCache` calls (src/backend/src/utils/features.ts, not among the
provided sources) touch only product stock and the cache and are omitted here;
no claim settled against this definition depends on them. -/
def newOrder (store : Store) (body : NewOrderBody) (newId : String) : HResult × Store :=
  if !(truthyObj body.shippingInfo && truthyObj body.orderItems && truthyStr body.user
      && truthyNum body.subtotal && truthyNum body.tax && truthyNum body.total) then
    (.err 400 "Please enter all required fields", store)
  else
    let order : Order :=
      { _id := newId
        user := body.user.getD ""
        subtotal := body.subtotal.getD 0
        tax := body.tax.getD 0
        shippingCharges := body.shippingCharges.getD 0
        discount := body.discount.getD 0
        total := body.total.getD 0
        status := .Processing
        shippingInfo := body.shippingInfo.getD ⟨"", "", "", "", 0⟩
        orderItems := body.orderItems.getD [] }
    (.ok 201 (.obj [("success", .bool true), ("message", .str "Order placed successfully")]),
      { store with orders := store.orders ++ [order] })

/-- Embeds `processOrder` (src/backend/src/controllers/order.ts lines 118-153)
on the store: find the order, advance its status with `processStatus`, save.
The `invalidateCache` call is omitted as above. -/
def processOrder (store : Store) (id : String) : HResult × Store :=
  if id = "" then (.err 400 "Order ID is required", store)
  else
    match Order.findById store id with
    | none => (.err 404 "Order not found", store)
    | some o =>
      let orders := store.orders.map
        (fun x => if x._id == o._id then { x with status := processStatus x.status } else x)
      (.ok 200 (.obj [("success", .bool true),
          ("message", .str "Order processed successfully")]),
        { store with orders := orders })

/-- Request body of `updateProduct`: every field optional. -/
structure UpdateBody where
  name : Option String
  price : Option Rat
  stock : Option Rat
  category : Option String
  description : Option String
deriving DecidableEq

/-- The per-product update `updateProduct` applies
(src/backend/dist/controllers/product.js lines 102-121): photos are replaced
when at least one file was uploaded (`photos` is the `{url, public_id}` list
the external image host returned for `req.files`; a missing `req.files` and an
empty list fail the `photos && photos.length > 0` guard alike), and each body
field is written only when truthy. -/
def applyUpdate (product : Product) (body : UpdateBody) (photos : List Photo) : Product :=
  let product := if photos.length > 0 then { product with photos := photos } else product
  let product := if truthyStr body.name then { product with name := body.name.getD "" }
    else product
  let product := if truthyNum body.price then { product with price := body.price.getD 0 }
    else product
  let product := if truthyNum body.stock then { product with stock := body.stock.getD 0 }
    else product
  let product := if truthyStr body.category then
    { product with category := body.category.getD "" } else product
  if truthyStr body.description then
    { product with description := body.description.getD "" } else product

/-- Embeds `updateProduct` (src/backend/dist/controllers/product.js lines
95-128).  The external image host calls (`uploadToCloudinary`,
`deleteFromCloudinary`) and the `invalidateCache` call are external effects
omitted here. -/
def updateProduct (store : Store) (id : String) (body : UpdateBody) (photos : List Photo) :
    HResult × Store :=
  match Product.findById store id with
  | none => (.err 404 "Product Not Found", store)
  | some product =>
    let products := store.products.map
      (fun p => if p._id == product._id then applyUpdate p body photos else p)
    (.ok 200 (.obj [("success", .bool true),
        ("message", .str "Product Updated Successfully")]),
      { store with products := products })

/-- Modelled from the spec: `findAverageRatings` lives in
src/backend/src/utils/features.ts, which is not among the provided sources;
only its callers (`newReview`, `deleteReview`) are.  Spec section 4.4: given a
product id, scan all reviews referencing it, compute the arithmetic mean of
`rating` (0 if there are no reviews, without dividing by zero) and the count.
Returns `(ratings, numOfReviews)`. -/
def findAverageRatings (reviews : List Review) (productId : String) : Rat × Nat :=
  let rs := reviews.filter (fun r => r.product == productId)
  let totalRating := rs.foldl (fun acc r => acc + r.rating) 0
  if rs.length = 0 then (0, 0) else (totalRating / rs.length, rs.length)

/-- Updates the first review matching the (user, product) pair — the document
`Review.findOne` returned — with the new comment and rating, as saving the
found document does. -/
def updateFirstReview (rs : List Review) (u p c : String) (k : Rat) : List Review :=
  match rs with
  | [] => []
  | r :: rest =>
    if r.user == u && r.product == p then { r with comment := c, rating := k } :: rest
    else r :: updateFirstReview rest u p c k

/-- The review-collection effect of `newReview`
(src/backend/dist/controllers/product.js lines 202-210): if a review by the
user for the product already exists, update it in place; otherwise create a
new review document. -/
def newReviewStore (rs : List Review) (newId u p c : String) (k : Rat) : List Review :=
  if rs.any (fun r => r.user == u && r.product == p) then updateFirstReview rs u p c k
  else rs ++ [{ _id := newId, comment := c, rating := k, user := u, product := p }]

/-- Number of reviews by a given user for a given product. -/
def countUP (rs : List Review) (u p : String) : Nat :=
  (rs.filter (fun r => r.user == u && r.product == p)).length

/-- Number of reviews referencing a given product. -/
def countProduct (rs : List Review) (p : String) : Nat :=
  (rs.filter (fun r => r.product == p)).length

/-- Embeds `newReview` (src/backend/dist/controllers/product.js lines
194-220).  `queryId` is `req.query.id` (`User.findById(undefined)` resolves to
no user); `productIdParam` is `req.params.id`.  The `invalidateCache` call is
omitted as above. -/
def newReview (store : Store) (queryId : Option String) (productIdParam : String)
    (comment : String) (rating : Rat) (newId : String) : HResult × Store :=
  match queryId.bind (User.findById store) with
  | none => (.err 404 "Not Logged In", store)
  | some user =>
    match Product.findById store productIdParam with
    | none => (.err 404 "Product Not Found", store)
    | some product =>
      let alreadyReviewed := store.reviews.any
        (fun r => r.user == user._id && r.product == product._id)
      let reviews := newReviewStore store.reviews newId user._id product._id comment rating
      let avg := findAverageRatings reviews product._id
      let products := store.products.map
        (fun p => if p._id == product._id then
          { p with ratings := avg.1, numOfReviews := avg.2 } else p)
      ((if alreadyReviewed then
          .ok 200 (.obj [("success", .bool true), ("message", .str "Review Updated")])
        else
          .ok 201 (.obj [("success", .bool true), ("message", .str "Review Added")])),
        { store with reviews := reviews, products := products })

/-! ## Theorems -/

/-- C2: the order status transition maps Processing to Shipped, Shipped to
Delivered, and every other status (the default branch, covering Delivered) to
Delivered; from Processing the transition reaches Delivered in exactly 2 steps,
every further application leaves it at Delivered, and no application moves a
status backwards along the pipeline. -/
theorem C2_process_order_transition :
    processStatus .Processing = .Shipped ∧
    processStatus .Shipped = .Delivered ∧
    (∀ s : Status, s ≠ .Processing → s ≠ .Shipped → processStatus s = .Delivered) ∧
    processStatus^[2] .Processing = .Delivered ∧
    processStatus^[1] .Processing ≠ .Delivered ∧
    (∀ n : Nat, processStatus^[2 + n] .Processing = .Delivered) ∧
    (∀ s : Status, s.rank ≤ (processStatus s).rank) := by
  refine ⟨rfl, rfl, ?_, rfl, by decide, ?_, ?_⟩
  · intro s h1 h2
    cases s with
    | Processing => exact absurd rfl h1
    | Shipped => exact absurd rfl h2
    | Delivered => rfl
  · intro n
    induction n with
    | zero => rfl
    | succ n ih =>
      have h : 2 + (n + 1) = (2 + n) + 1 := rfl
      rw [h, Function.iterate_succ_apply', ih]
      rfl
  · intro s
    cases s <;> decide

/-- C2 witness: the catch-all branch of the transition evaluated at Delivered. -/
theorem C2_process_order_transition_witness :
    processStatus .Delivered = .Delivered :=
  C2_process_order_transition.2.2.1 .Delivered (by decide) (by decide)

/-- C6: the admin-only middleware responds 401 when the request carries no
user id, 403 when the id resolves to a user whose role is not admin, and
calls the next handler when the id resolves to an admin user. -/
theorem C6_admin_only :
    (∀ store : Store, adminOnly store none = .err 401 "Please log in first") ∧
    (∀ (store : Store) (i : String) (u : User), i ≠ "" →
      User.findById store i = some u → u.role ≠ "admin" →
      adminOnly store (some i) = .err 403 "You do not have admin privileges") ∧
    (∀ (store : Store) (i : String) (u : User), i ≠ "" →
      User.findById store i = some u → u.role = "admin" →
      adminOnly store (some i) = .next) := by
  refine ⟨fun _ => rfl, ?_, ?_⟩
  · intro store i u hi hu hrole
    simp [adminOnly, hi, hu, hrole]
  · intro store i u hi hu hrole
    simp [adminOnly, hi, hu, hrole]

/-- C6 witness: on a store with one admin and one plain user, the middleware
rejects the plain user with 403, lets the admin proceed, and rejects a
request without an id with 401. -/
theorem C6_admin_only_witness :
    adminOnly ⟨[], [], [], [⟨"u1", "Ann", "admin"⟩, ⟨"u2", "Bob", "user"⟩]⟩ (some "u2")
        = .err 403 "You do not have admin privileges" ∧
    adminOnly ⟨[], [], [], [⟨"u1", "Ann", "admin"⟩, ⟨"u2", "Bob", "user"⟩]⟩ (some "u1")
        = .next ∧
    adminOnly ⟨[], [], [], [⟨"u1", "Ann", "admin"⟩, ⟨"u2", "Bob", "user"⟩]⟩ none
        = .err 401 "Please log in first" :=
  ⟨C6_admin_only.2.1 _ "u2" ⟨"u2", "Bob", "user"⟩ (by decide) rfl (by decide),
   C6_admin_only.2.2 _ "u1" ⟨"u1", "Ann", "admin"⟩ (by decide) rfl rfl,
   C6_admin_only.1 _⟩

/-- C7: evaluating `newReview` at a request whose user-id lookup fails: the
handler forwards status 404 with message "Not Logged In", where the error
taxonomy (and the analogous check in `adminOnly`) assigns 401 to the
not-logged-in condition. -/
theorem C7_new_review_not_logged_in_status :
    newReview ⟨[], [], [], []⟩ (some "u1") "p1" "nice" 3 "r1"
      = (.err 404 "Not Logged In", ⟨[], [], [], []⟩) := rfl

theorem truthyNum_eq_true_iff (o : Option Rat) :
    truthyNum o = true ↔ o ≠ none ∧ o ≠ some 0 := by
  cases o with
  | none => simp [truthyNum]
  | some q => simp [truthyNum, bne_iff_ne]

theorem truthyStr_eq_true_iff (o : Option String) :
    truthyStr o = true ↔ o ≠ none ∧ o ≠ some "" := by
  cases o with
  | none => simp [truthyStr]
  | some s => simp [truthyStr, bne_iff_ne]

theorem truthyObj_eq_true_iff {α : Type} (o : Option α) :
    truthyObj o = true ↔ o ≠ none := by
  cases o <;> simp [truthyObj]

/-- C8: `newOrder` rejects with a 400 error exactly the requests in which
shippingInfo, orderItems, user, subtotal, tax, or total is absent or falsy
(for the JS falsiness of each field's type), so an order whose subtotal, tax,
or total equals 0 is rejected even though all fields are present, while
shippingCharges and discount never influence acceptance and may be absent. -/
theorem C8_new_order_validation :
    ∀ (store : Store) (body : NewOrderBody) (newId : String),
      ((newOrder store body newId).1 = .err 400 "Please enter all required fields" ↔
        (body.shippingInfo = none ∨ body.orderItems = none ∨
         body.user = none ∨ body.user = some "" ∨
         body.subtotal = none ∨ body.subtotal = some 0 ∨
         body.tax = none ∨ body.tax = some 0 ∨
         body.total = none ∨ body.total = some 0)) ∧
      (∀ x y : Option Rat,
        (newOrder store { body with shippingCharges := x, discount := y } newId).1
            = .err 400 "Please enter all required fields" ↔
        (newOrder store body newId).1 = .err 400 "Please enter all required fields") := by
  intro store body newId
  have hchar : ∀ b : NewOrderBody,
      ((newOrder store b newId).1 = .err 400 "Please enter all required fields" ↔
        (b.shippingInfo = none ∨ b.orderItems = none ∨
         b.user = none ∨ b.user = some "" ∨
         b.subtotal = none ∨ b.subtotal = some 0 ∨
         b.tax = none ∨ b.tax = some 0 ∨
         b.total = none ∨ b.total = some 0)) := by
    intro b
    have hres : ((newOrder store b newId).1 = .err 400 "Please enter all required fields" ↔
        ¬ (truthyObj b.shippingInfo && truthyObj b.orderItems && truthyStr b.user
          && truthyNum b.subtotal && truthyNum b.tax && truthyNum b.total) = true) := by
      by_cases hb : (truthyObj b.shippingInfo && truthyObj b.orderItems && truthyStr b.user
          && truthyNum b.subtotal && truthyNum b.tax && truthyNum b.total) = true
      · simp [newOrder, hb]
      · rw [Bool.not_eq_true] at hb
        simp [newOrder, hb]
    rw [hres]
    simp only [Bool.and_eq_true, truthyObj_eq_true_iff, truthyStr_eq_true_iff,
      truthyNum_eq_true_iff]
    tauto
  refine ⟨hchar body, ?_⟩
  intro x y
  rw [hchar body, hchar { body with shippingCharges := x, discount := y }]

/-- C9: `updateProduct` rewrites in the store exactly the targeted product by
`applyUpdate`, which writes each of name, price, stock, category, description
only when the corresponding body value is truthy and leaves every other field
of the product unchanged; in particular a body value of 0 for price or stock
leaves the stored value unchanged, and photos are replaced exactly when at
least one new photo file was supplied. -/
theorem applyUpdate_id (q : Product) (body : UpdateBody) (photos : List Photo) :
    (applyUpdate q body photos)._id = q._id := by
  simp only [applyUpdate]
  split_ifs <;> rfl

theorem applyUpdate_ratings (q : Product) (body : UpdateBody) (photos : List Photo) :
    (applyUpdate q body photos).ratings = q.ratings := by
  simp only [applyUpdate]
  split_ifs <;> rfl

theorem applyUpdate_numOfReviews (q : Product) (body : UpdateBody) (photos : List Photo) :
    (applyUpdate q body photos).numOfReviews = q.numOfReviews := by
  simp only [applyUpdate]
  split_ifs <;> rfl

theorem applyUpdate_name (q : Product) (body : UpdateBody) (photos : List Photo) :
    (applyUpdate q body photos).name =
      if truthyStr body.name then body.name.getD "" else q.name := by
  simp only [applyUpdate]
  split_ifs <;> rfl

theorem applyUpdate_price (q : Product) (body : UpdateBody) (photos : List Photo) :
    (applyUpdate q body photos).price =
      if truthyNum body.price then body.price.getD 0 else q.price := by
  simp only [applyUpdate]
  split_ifs <;> rfl

theorem applyUpdate_stock (q : Product) (body : UpdateBody) (photos : List Photo) :
    (applyUpdate q body photos).stock =
      if truthyNum body.stock then body.stock.getD 0 else q.stock := by
  simp only [applyUpdate]
  split_ifs <;> rfl

theorem applyUpdate_category (q : Product) (body : UpdateBody) (photos : List Photo) :
    (applyUpdate q body photos).category =
      if truthyStr body.category then body.category.getD "" else q.category := by
  simp only [applyUpdate]
  split_ifs <;> rfl

theorem applyUpdate_description (q : Product) (body : UpdateBody) (photos : List Photo) :
    (applyUpdate q body photos).description =
      if truthyStr body.description then body.description.getD "" else q.description := by
  simp only [applyUpdate]
  split_ifs <;> rfl

theorem applyUpdate_photos (q : Product) (body : UpdateBody) (photos : List Photo) :
    (applyUpdate q body photos).photos =
      if photos.length > 0 then photos else q.photos := by
  simp only [applyUpdate]
  split_ifs <;> rfl

theorem C9_update_product_frame :
    ∀ (store : Store) (id : String) (body : UpdateBody) (photos : List Photo)
      (product : Product), Product.findById store id = some product →
      (updateProduct store id body photos).2.products = store.products.map
        (fun p => if p._id == product._id then applyUpdate p body photos else p) ∧
      (∀ q : Product,
        (applyUpdate q body photos)._id = q._id ∧
        (applyUpdate q body photos).ratings = q.ratings ∧
        (applyUpdate q body photos).numOfReviews = q.numOfReviews ∧
        ((applyUpdate q body photos).name =
          if truthyStr body.name then body.name.getD "" else q.name) ∧
        ((applyUpdate q body photos).price =
          if truthyNum body.price then body.price.getD 0 else q.price) ∧
        ((applyUpdate q body photos).stock =
          if truthyNum body.stock then body.stock.getD 0 else q.stock) ∧
        ((applyUpdate q body photos).category =
          if truthyStr body.category then body.category.getD "" else q.category) ∧
        ((applyUpdate q body photos).description =
          if truthyStr body.description then body.description.getD "" else q.description) ∧
        ((applyUpdate q body photos).photos = if photos.length > 0 then photos else q.photos) ∧
        (body.price = some 0 → (applyUpdate q body photos).price = q.price) ∧
        (body.stock = some 0 → (applyUpdate q body photos).stock = q.stock) ∧
        (photos = [] → (applyUpdate q body photos).photos = q.photos)) := by
  intro store id body photos product hfind
  constructor
  · simp [updateProduct, hfind]
  · intro q
    refine ⟨applyUpdate_id q body photos, applyUpdate_ratings q body photos,
      applyUpdate_numOfReviews q body photos, applyUpdate_name q body photos,
      applyUpdate_price q body photos, applyUpdate_stock q body photos,
      applyUpdate_category q body photos, applyUpdate_description q body photos,
      applyUpdate_photos q body photos, ?_, ?_, ?_⟩
    · intro h0
      rw [applyUpdate_price, h0]
      simp [truthyNum]
    · intro h0
      rw [applyUpdate_stock, h0]
      simp [truthyNum]
    · intro h0
      rw [applyUpdate_photos, h0]
      simp

/-- C9 witness: a store holding one product, updated with a body whose price
and stock are 0 and with no new photos: price, stock and photos survive. -/
theorem C9_update_product_frame_witness :
    (applyUpdate ⟨"p1", "mug", 7, 20, "kitchen", "a mug", [⟨"u", "pid"⟩], 4, 2⟩
        ⟨some "cup", some 0, some 0, none, none⟩ []).price = 7 ∧
    (applyUpdate ⟨"p1", "mug", 7, 20, "kitchen", "a mug", [⟨"u", "pid"⟩], 4, 2⟩
        ⟨some "cup", some 0, some 0, none, none⟩ []).stock = 20 ∧
    (applyUpdate ⟨"p1", "mug", 7, 20, "kitchen", "a mug", [⟨"u", "pid"⟩], 4, 2⟩
        ⟨some "cup", some 0, some 0, none, none⟩ []).photos = [⟨"u", "pid"⟩] := by
  have h := C9_update_product_frame
    ⟨[], [⟨"p1", "mug", 7, 20, "kitchen", "a mug", [⟨"u", "pid"⟩], 4, 2⟩], [], []⟩ "p1"
    ⟨some "cup", some 0, some 0, none, none⟩ []
    ⟨"p1", "mug", 7, 20, "kitchen", "a mug", [⟨"u", "pid"⟩], 4, 2⟩ rfl
  obtain ⟨-, hq⟩ := h
  obtain ⟨-, -, -, -, -, -, -, -, -, hp, hs, hph⟩ :=
    hq ⟨"p1", "mug", 7, 20, "kitchen", "a mug", [⟨"u", "pid"⟩], 4, 2⟩
  exact ⟨hp rfl, hs rfl, hph rfl⟩

theorem cacheLookup_setex_self (c : Cache) (k : String) (ttl : Nat) (v : Json) :
    cacheLookup (setex c k ttl v) k = some (v, ttl) := by
  simp [cacheLookup, setex, List.find?]

/-- C10: the single-entity read endpoints return a 404 not-found error exactly
when the id is absent from both the cache and the document store; on a cache
hit the cached payload is returned with success and the store is not
consulted, so a cached entry is served even when the entity no longer exists
in the store. -/
theorem C10_single_reads_404_iff_absent :
    ∀ (cache : Cache) (store : Store) (ttl : Nat) (id : String),
      (((getSingleProduct cache store ttl id).1 = .err 404 "Product Not Found") ↔
        (cacheGet cache (productKey id) = none ∧ Product.findById store id = none)) ∧
      (∀ j, cacheGet cache (productKey id) = some j →
        (getSingleProduct cache store ttl id).1 = .ok 200 (envelope "product" j) ∧
        (getSingleProduct cache store ttl id).2 = cache ∧
        (∀ store2 : Store,
          getSingleProduct cache store2 ttl id = getSingleProduct cache store ttl id)) ∧
      (id ≠ "" →
        (((getSingleOrder cache store ttl id).1 = .err 404 "Order not found") ↔
          (cacheGet cache (orderKey id) = none ∧ Order.findById store id = none)) ∧
        (∀ j, cacheGet cache (orderKey id) = some j →
          (getSingleOrder cache store ttl id).1 = .ok 200 (envelope "order" j) ∧
          (getSingleOrder cache store ttl id).2 = cache ∧
          (∀ store2 : Store,
            getSingleOrder cache store2 ttl id = getSingleOrder cache store ttl id))) := by
  intro cache store ttl id
  refine ⟨?_, ?_, ?_⟩
  · match hc : cacheGet cache (productKey id) with
    | some j => simp [getSingleProduct, hc]
    | none =>
      match hs : Product.findById store id with
      | some p => simp [getSingleProduct, hc, hs]
      | none => simp [getSingleProduct, hc, hs]
  · intro j hc
    refine ⟨by simp [getSingleProduct, hc], by simp [getSingleProduct, hc], ?_⟩
    intro store2
    simp [getSingleProduct, hc]
  · intro hid
    constructor
    · match hc : cacheGet cache (orderKey id) with
      | some j => simp [getSingleOrder, hid, hc]
      | none =>
        match hs : Order.findById store id with
        | some o => simp [getSingleOrder, hid, hc, hs]
        | none => simp [getSingleOrder, hid, hc, hs]
    · intro j hc
      refine ⟨by simp [getSingleOrder, hid, hc], by simp [getSingleOrder, hid, hc], ?_⟩
      intro store2
      simp [getSingleOrder, hid, hc]

/-- C10 witness: a cache holding an entry for product p1 and order o1 over an
empty store: both endpoints serve the cached payload with success although
neither entity exists in the store. -/
theorem C10_single_reads_404_iff_absent_witness :
    (getSingleProduct [("product-p1", .null, 9)] ⟨[], [], [], []⟩ 60 "p1").1
        = .ok 200 (envelope "product" .null) ∧
    (getSingleOrder [("order-o1", .bool true, 9)] ⟨[], [], [], []⟩ 60 "o1").1
        = .ok 200 (envelope "order" (.bool true)) := by
  refine ⟨((C10_single_reads_404_iff_absent [("product-p1", .null, 9)]
      ⟨[], [], [], []⟩ 60 "p1").2.1 .null rfl).1, ?_⟩
  exact (((C10_single_reads_404_iff_absent [("order-o1", .bool true, 9)]
      ⟨[], [], [], []⟩ 60 "o1").2.2 (by decide)).2 (.bool true) rfl).1

/-- C1: the read endpoints follow the read-through discipline: on a cache hit
the cached payload is returned deserialized, the cache is left unchanged and
the document store is not consulted; on a miss the fallback store computation
runs, its serialized result is stored under the key with the configured TTL,
and that result is returned. -/
theorem C1_read_through :
    ∀ (cache : Cache) (store : Store) (ttl : Nat) (uid : String), uid ≠ "" →
      (∀ j, cacheGet cache (myOrdersKey uid) = some j →
        myOrders cache store ttl (some uid) = (.ok 200 (envelope "orders" j), cache) ∧
        (∀ store2 : Store,
          myOrders cache store2 ttl (some uid) = myOrders cache store ttl (some uid))) ∧
      (cacheGet cache (myOrdersKey uid) = none →
        myOrders cache store ttl (some uid) =
          (.ok 200 (envelope "orders" (encodeOrders (Order.findByUser store uid))),
            setex cache (myOrdersKey uid) ttl (encodeOrders (Order.findByUser store uid))) ∧
        cacheLookup (myOrders cache store ttl (some uid)).2 (myOrdersKey uid)
            = some (encodeOrders (Order.findByUser store uid), ttl)) ∧
      (∀ id : String,
        (∀ j, cacheGet cache (productKey id) = some j →
          getSingleProduct cache store ttl id = (.ok 200 (envelope "product" j), cache)) ∧
        (∀ p, cacheGet cache (productKey id) = none → Product.findById store id = some p →
          getSingleProduct cache store ttl id =
            (.ok 200 (envelope "product" p.toJson),
              setex cache (productKey id) ttl p.toJson) ∧
          cacheLookup (getSingleProduct cache store ttl id).2 (productKey id)
              = some (p.toJson, ttl))) := by
  intro cache store ttl uid huid
  refine ⟨?_, ?_, ?_⟩
  · intro j hc
    constructor
    · simp [myOrders, huid, hc]
    · intro store2
      simp [myOrders, huid, hc]
  · intro hc
    refine ⟨by simp [myOrders, huid, hc], ?_⟩
    have h2 : (myOrders cache store ttl (some uid)).2
        = setex cache (myOrdersKey uid) ttl (encodeOrders (Order.findByUser store uid)) := by
      simp [myOrders, huid, hc]
    rw [h2, cacheLookup_setex_self]
  · intro id
    constructor
    · intro j hc
      simp [getSingleProduct, hc]
    · intro p hc hs
      refine ⟨by simp [getSingleProduct, hc, hs], ?_⟩
      have h2 : (getSingleProduct cache store ttl id).2
          = setex cache (productKey id) ttl p.toJson := by
        simp [getSingleProduct, hc, hs]
      rw [h2, cacheLookup_setex_self]

/-- C1 witness: a hit on `my-orders-u1` returns the cached payload unchanged,
and a miss on `product-p1` over a store holding p1 computes the product,
caches its JSON under the key with the given TTL, and returns it. -/
theorem C1_read_through_witness :
    myOrders [("my-orders-u1", .arr [], 7)] ⟨[], [], [], []⟩ 60 (some "u1")
        = (.ok 200 (envelope "orders" (.arr [])), [("my-orders-u1", .arr [], 7)]) ∧
    getSingleProduct [] ⟨[], [⟨"p1", "mug", 7, 20, "kitchen", "a mug", [], 0, 0⟩], [], []⟩
        60 "p1"
        = (.ok 200 (envelope "product"
            (Product.toJson ⟨"p1", "mug", 7, 20, "kitchen", "a mug", [], 0, 0⟩)),
          setex [] (productKey "p1") 60
            (Product.toJson ⟨"p1", "mug", 7, 20, "kitchen", "a mug", [], 0, 0⟩)) := by
  constructor
  · exact ((C1_read_through [("my-orders-u1", .arr [], 7)] ⟨[], [], [], []⟩ 60 "u1"
      (by decide)).1 (.arr []) rfl).1
  · exact (((C1_read_through [] ⟨[], [⟨"p1", "mug", 7, 20, "kitchen", "a mug", [], 0, 0⟩],
      [], []⟩ 60 "u1" (by decide)).2.2 "p1").2
      ⟨"p1", "mug", 7, 20, "kitchen", "a mug", [], 0, 0⟩ rfl rfl).1

theorem foldl_add_rating (rs : List Review) (a : Rat) :
    rs.foldl (fun acc r => acc + r.rating) a = a + (rs.map Review.rating).sum := by
  induction rs generalizing a with
  | nil => simp
  | cons r rest ih => simp [ih, add_assoc]

/-- C3: the Rating Aggregator returns the count of the reviews referencing the
product and an average whose product with that count is the sum of their
ratings (so the arithmetic mean whenever any review exists); with zero reviews
it returns average 0 and count 0 without dividing by zero, and on ratings
[3, 5] it returns average 4 and count 2. -/
theorem C3_find_average_ratings :
    (∀ (reviews : List Review) (pid : String),
      (findAverageRatings reviews pid).2 = countProduct reviews pid ∧
      (findAverageRatings reviews pid).1 * (countProduct reviews pid : Rat) =
        ((reviews.filter (fun r => r.product == pid)).map Review.rating).sum ∧
      (countProduct reviews pid = 0 → findAverageRatings reviews pid = (0, 0))) ∧
    findAverageRatings [] "p1" = (0, 0) ∧
    findAverageRatings
        [⟨"r1", "good", 3, "u1", "p1"⟩, ⟨"r2", "great", 5, "u2", "p1"⟩] "p1" = (4, 2) := by
  refine ⟨?_, rfl, ?_⟩
  · intro reviews pid
    by_cases h0 : (reviews.filter (fun r => r.product == pid)).length = 0
    · have hnil : reviews.filter (fun r => r.product == pid) = [] :=
        List.length_eq_zero.mp h0
      refine ⟨?_, ?_, fun _ => ?_⟩
      · simp [findAverageRatings, countProduct, hnil]
      · simp [findAverageRatings, countProduct, hnil]
      · simp [findAverageRatings, hnil]
    · have hne : ((reviews.filter (fun r => r.product == pid)).length : Rat) ≠ 0 := by
        exact_mod_cast h0
      refine ⟨?_, ?_, fun hc => ?_⟩
      · simp [findAverageRatings, countProduct, h0]
      · simp only [findAverageRatings, h0, if_false, countProduct, foldl_add_rating,
          zero_add]
        rw [div_mul_cancel₀ _ hne]
      · exact absurd hc h0
  · simp only [findAverageRatings]
    norm_num [List.filter, foldl_add_rating]

/-- C3 witness: the zero-review case, through the general statement. -/
theorem C3_find_average_ratings_witness :
    findAverageRatings [] "q7" = (0, 0) :=
  (C3_find_average_ratings.1 [] "q7").2.2 rfl

theorem length_updateFirstReview (rs : List Review) (u p c : String) (k : Rat) :
    (updateFirstReview rs u p c k).length = rs.length := by
  induction rs with
  | nil => rfl
  | cons r rest ih =>
    simp only [updateFirstReview]
    by_cases h : (r.user == u && r.product == p) = true
    · simp [h]
    · simp [h, ih]

theorem filter_length_updateFirstReview (rs : List Review) (u p c : String) (k : Rat)
    (q : Review → Bool) (hq : ∀ r : Review, q { r with comment := c, rating := k } = q r) :
    ((updateFirstReview rs u p c k).filter q).length = (rs.filter q).length := by
  induction rs with
  | nil => rfl
  | cons r rest ih =>
    simp only [updateFirstReview]
    by_cases h : (r.user == u && r.product == p) = true
    · simp only [if_pos h, List.filter_cons, hq r]
      cases hqr : q r <;> simp
    · simp only [if_neg h, List.filter_cons]
      cases hqr : q r <;> simp [ih]

theorem countUP_eq_zero_of_any_false (rs : List Review) (u p : String)
    (h : rs.any (fun r => r.user == u && r.product == p) = false) :
    countUP rs u p = 0 := by
  unfold countUP
  rw [List.length_eq_zero, List.filter_eq_nil_iff]
  exact fun r hr => by simpa using List.any_eq_false.mp h r hr

theorem countUP_pos_of_any_true (rs : List Review) (u p : String)
    (h : rs.any (fun r => r.user == u && r.product == p) = true) :
    1 ≤ countUP rs u p := by
  obtain ⟨r, hr, hpr⟩ := List.any_eq_true.mp h
  have hmem : r ∈ rs.filter (fun r => r.user == u && r.product == p) :=
    List.mem_filter.mpr ⟨hr, hpr⟩
  have := List.length_pos.mpr (List.ne_nil_of_mem hmem)
  unfold countUP
  omega

/-- C4: submitting a review through the upsert of `newReview` when a review by
that user for that product already exists updates the existing review rather
than creating a new one: a store holding at most one review per (user,
product) pair keeps that invariant for every pair, a second submission never
grows the review collection, and starting from a product with no reviews two
submissions by the same user leave the product's review count at exactly 1. -/
theorem C4_review_upsert :
    ∀ (rs : List Review) (id1 id2 u p c1 c2 : String) (k1 k2 : Rat),
      (countUP rs u p ≤ 1 → countUP (newReviewStore rs id1 u p c1 k1) u p = 1) ∧
      (∀ u2 p2, countUP rs u2 p2 ≤ 1 →
        countUP (newReviewStore rs id1 u p c1 k1) u2 p2 ≤ 1) ∧
      (1 ≤ countUP rs u p → (newReviewStore rs id1 u p c1 k1).length = rs.length) ∧
      (countProduct rs p = 0 →
        countProduct (newReviewStore (newReviewStore rs id1 u p c1 k1) id2 u p c2 k2) p
          = 1) := by
  intro rs id1 id2 u p c1 c2 k1 k2
  refine ⟨?_, ?_, ?_, ?_⟩
  · intro hle
    by_cases hany : rs.any (fun r => r.user == u && r.product == p) = true
    · have h1 := countUP_pos_of_any_true rs u p hany
      have h2 : countUP (newReviewStore rs id1 u p c1 k1) u p = countUP rs u p := by
        simp only [newReviewStore, if_pos hany, countUP]
        exact filter_length_updateFirstReview rs u p c1 k1 _ (fun r => rfl)
      omega
    · rw [Bool.not_eq_true] at hany
      have h0 := countUP_eq_zero_of_any_false rs u p hany
      simp only [newReviewStore, hany, Bool.false_eq_true, if_false, countUP,
        List.filter_append]
      simp only [countUP] at h0
      simp [h0, List.filter]
  · intro u2 p2 hle
    by_cases hany : rs.any (fun r => r.user == u && r.product == p) = true
    · have h2 : countUP (newReviewStore rs id1 u p c1 k1) u2 p2 = countUP rs u2 p2 := by
        simp only [newReviewStore, if_pos hany, countUP]
        exact filter_length_updateFirstReview rs u p c1 k1 _ (fun r => rfl)
      omega
    · rw [Bool.not_eq_true] at hany
      have h0 := countUP_eq_zero_of_any_false rs u p hany
      simp only [newReviewStore, hany, Bool.false_eq_true, if_false, countUP,
        List.filter_append]
      by_cases hm : (u == u2 && p == p2) = true
      · have hm' : u = u2 ∧ p = p2 := by simpa using hm
        obtain ⟨hu', hp'⟩ := hm'
        subst hu'
        subst hp'
        simp only [countUP] at h0 hle ⊢
        simp [h0, List.filter]
      · rw [Bool.not_eq_true] at hm
        simp only [countUP] at hle ⊢
        have hsingle : (List.filter (fun r => r.user == u2 && r.product == p2)
            [({ _id := id1, comment := c1, rating := k1, user := u, product := p } :
              Review)]) = [] := by
          simp [List.filter_cons, hm]
        rw [hsingle]
        simpa using hle
  · intro hge
    by_cases hany : rs.any (fun r => r.user == u && r.product == p) = true
    · simp only [newReviewStore, if_pos hany]
      exact length_updateFirstReview rs u p c1 k1
    · rw [Bool.not_eq_true] at hany
      have h0 := countUP_eq_zero_of_any_false rs u p hany
      omega
  · intro hp0
    have hall : ∀ r ∈ rs, ¬ (r.product == p) = true := by
      intro r hr
      have hnil : rs.filter (fun r => r.product == p) = [] := by
        simpa [countProduct, List.length_eq_zero] using hp0
      exact List.filter_eq_nil_iff.mp hnil r hr
    have hany1 : rs.any (fun r => r.user == u && r.product == p) = false := by
      rw [List.any_eq_false]
      intro r hr
      simp only [Bool.and_eq_true, not_and]
      exact fun _ => hall r hr
    have hstep1 : newReviewStore rs id1 u p c1 k1 =
        rs ++ [{ _id := id1, comment := c1, rating := k1, user := u, product := p }] := by
      simp [newReviewStore, hany1]
    have hcount1 : countProduct (newReviewStore rs id1 u p c1 k1) p = 1 := by
      rw [hstep1]
      simp only [countProduct, List.filter_append, List.length_append]
      have h1 : rs.filter (fun r => r.product == p) = [] :=
        List.filter_eq_nil_iff.mpr hall
      rw [h1]
      simp [List.filter]
    set rs1 := newReviewStore rs id1 u p c1 k1 with hrs1
    have hany2 : rs1.any (fun r => r.user == u && r.product == p) = true := by
      rw [hstep1, List.any_eq_true]
      refine ⟨{ _id := id1, comment := c1, rating := k1, user := u, product := p },
        List.mem_append_right _ (List.mem_singleton.mpr rfl), by simp⟩
    have h2 : countProduct (newReviewStore rs1 id2 u p c2 k2) p = countProduct rs1 p := by
      simp only [newReviewStore, if_pos hany2, countProduct]
      exact filter_length_updateFirstReview rs1 u p c2 k2
        (fun r => r.product == p) (fun r => rfl)
    rw [h2, hcount1]

/-- C4 witness: from an empty review collection, two submissions by the same
user for the same product leave exactly one review for that product. -/
theorem C4_review_upsert_witness :
    countProduct (newReviewStore (newReviewStore [] "i1" "u" "p" "nice" 3) "i2" "u" "p"
        "better" 5) "p" = 1 :=
  (C4_review_upsert [] "i1" "i2" "u" "p" "nice" "better" 3 5).2.2.2 rfl

/-- A string parameter free of the separator the key builder joins with. -/
def dashFree (s : String) : Prop := ('-' : Char) ∉ s.data

instance (s : String) : Decidable (dashFree s) :=
  inferInstanceAs (Decidable (('-' : Char) ∉ s.data))

/-- Value of a little-endian decimal digit list. -/
def ofDigitsRev : List Nat → Nat
  | [] => 0
  | d :: ds => d + 10 * ofDigitsRev ds

theorem ofDigitsRev_natDigitsRev (fuel : Nat) : ∀ n : Nat, n ≤ fuel →
    ofDigitsRev (natDigitsRev fuel n) = n := by
  induction fuel with
  | zero =>
    intro n h
    have hn : n = 0 := Nat.le_zero.mp h
    subst hn
    rfl
  | succ f ih =>
    intro n h
    by_cases hn : n = 0
    · subst hn
      simp [natDigitsRev, ofDigitsRev]
    · have hdiv : n / 10 ≤ f := by
        have : n / 10 < n := Nat.div_lt_self (Nat.pos_of_ne_zero hn) (by norm_num)
        omega
      simp [natDigitsRev, hn, ofDigitsRev, ih (n / 10) hdiv, Nat.mod_add_div]

theorem natDigitsRev_lt_ten (fuel : Nat) : ∀ n d : Nat, d ∈ natDigitsRev fuel n → d < 10 := by
  induction fuel with
  | zero =>
    intro n d h
    simp [natDigitsRev] at h
  | succ f ih =>
    intro n d h
    by_cases hn : n = 0
    · subst hn
      simp [natDigitsRev] at h
    · simp only [natDigitsRev, if_neg hn, List.mem_cons] at h
      rcases h with h | h
      · subst h
        exact Nat.mod_lt _ (by norm_num)
      · exact ih _ d h

theorem digitChar_inj_lt : ∀ a < 10, ∀ b < 10, Nat.digitChar a = Nat.digitChar b → a = b := by
  decide

theorem map_digitChar_inj : ∀ l1 l2 : List Nat, (∀ d ∈ l1, d < 10) → (∀ d ∈ l2, d < 10) →
    l1.map Nat.digitChar = l2.map Nat.digitChar → l1 = l2 := by
  intro l1
  induction l1 with
  | nil =>
    intro l2 _ _ h
    cases l2 with
    | nil => rfl
    | cons b bs => simp at h
  | cons a as ih =>
    intro l2 h1 h2 h
    cases l2 with
    | nil => simp at h
    | cons b bs =>
      simp only [List.map_cons, List.cons.injEq] at h
      have ha : a = b :=
        digitChar_inj_lt a (h1 a (List.mem_cons_self a as)) b (h2 b (List.mem_cons_self b bs))
          h.1
      have hrest := ih bs (fun d hd => h1 d (List.mem_cons_of_mem a hd))
        (fun d hd => h2 d (List.mem_cons_of_mem b hd)) h.2
      rw [ha, hrest]

theorem natStr_inj : ∀ m n : Nat, natStr m = natStr n → m = n := by
  have key : ∀ m n : Nat, m ≠ 0 → n ≠ 0 → natStr m = natStr n → m = n := by
    intro m n hm hn h
    simp only [natStr, if_neg hm, if_neg hn] at h
    have hd : (natDigitsRev m m).reverse.map Nat.digitChar
        = (natDigitsRev n n).reverse.map Nat.digitChar := congrArg String.data h
    have hrev : (natDigitsRev m m).reverse = (natDigitsRev n n).reverse :=
      map_digitChar_inj _ _
        (fun d hd' => natDigitsRev_lt_ten m m d (List.mem_reverse.mp hd'))
        (fun d hd' => natDigitsRev_lt_ten n n d (List.mem_reverse.mp hd')) hd
    have hlists : natDigitsRev m m = natDigitsRev n n :=
      List.reverse_injective hrev
    have h1 := ofDigitsRev_natDigitsRev m m le_rfl
    have h2 := ofDigitsRev_natDigitsRev n n le_rfl
    rw [hlists, h2] at h1
    omega
  have zero_case : ∀ n : Nat, n ≠ 0 → natStr n ≠ "0" := by
    intro n hn h
    simp only [natStr, if_neg hn] at h
    have hd : (natDigitsRev n n).reverse.map Nat.digitChar = ['0'] := congrArg String.data h
    have h0 : (List.map Nat.digitChar [0]) = ['0'] := rfl
    have hrev : (natDigitsRev n n).reverse = [0] :=
      map_digitChar_inj _ [0]
        (fun d hd' => natDigitsRev_lt_ten n n d (List.mem_reverse.mp hd'))
        (fun d hd' => by simp at hd'; omega) (hd.trans h0.symm)
    have hlist : natDigitsRev n n = [0] := by
      have := congrArg List.reverse hrev
      simpa using this
    have hval := ofDigitsRev_natDigitsRev n n le_rfl
    rw [hlist] at hval
    simp [ofDigitsRev] at hval
    exact hn hval.symm
  have h00 : natStr 0 = "0" := rfl
  intro m n h
  by_cases hm : m = 0 <;> by_cases hn : n = 0
  · omega
  · subst hm
    rw [h00] at h
    exact absurd h.symm (zero_case n hn)
  · subst hn
    rw [h00] at h
    exact absurd h (zero_case m hm)
  · exact key m n hm hn h

theorem append_sep_inj : ∀ a b r1 r2 : List Char,
    ('-' : Char) ∉ a → ('-' : Char) ∉ b →
    a ++ '-' :: r1 = b ++ '-' :: r2 → a = b ∧ r1 = r2 := by
  intro a
  induction a with
  | nil =>
    intro b r1 r2 _ hb h
    cases b with
    | nil => simpa using h
    | cons c bs =>
      simp only [List.nil_append, List.cons_append, List.cons.injEq] at h
      refine absurd ?_ hb
      rw [h.1]
      exact List.mem_cons_self c bs
  | cons c as ih =>
    intro b r1 r2 ha hb h
    cases b with
    | nil =>
      simp only [List.cons_append, List.nil_append, List.cons.injEq] at h
      refine absurd ?_ ha
      rw [← h.1]
      exact List.mem_cons_self c as
    | cons d bs =>
      simp only [List.cons_append, List.cons.injEq] at h
      obtain ⟨hcd, htail⟩ := h
      have ha' : ('-' : Char) ∉ as := fun hx => ha (List.mem_cons_of_mem c hx)
      have hb' : ('-' : Char) ∉ bs := fun hx => hb (List.mem_cons_of_mem d hx)
      obtain ⟨h1, h2⟩ := ih bs r1 r2 ha' hb' htail
      exact ⟨by rw [hcd, h1], h2⟩

theorem productsKey_data (s so c p : String) (pg : Nat) :
    (productsKey s so c p pg).data =
      ("products".data ++ '-' :: (s.data ++ '-' :: (so.data ++ '-' :: (c.data ++ '-' ::
        (p.data ++ '-' :: (natStr pg).data))))) := by
  simp [productsKey, String.data_append, List.append_assoc]

/-- C5 counterexample: the key builder collides on two semantically distinct
queries whose parameters contain the separator: search "a" with sort "b-c"
and search "a-b" with sort "c" build the identical key. -/
theorem C5_cache_key_counterexample :
    productsKey "a" "b-c" "d" "1" 1 = productsKey "a-b" "c" "d" "1" 1 ∧
    ¬ (("a" : String) = "a-b" ∧ ("b-c" : String) = "c") := by
  constructor
  · decide
  · decide

/-- C5 (amended): calls with identical parameters build the identical key; the
single-parameter keys are injective outright; and the products listing key is
injective over parameter values free of the separator, so distinct dash-free
queries (differing in search, sort, category, price, or page) get distinct
keys — but not over arbitrary values, per the counterexample. -/
theorem C5_cache_key_builder :
    (∀ (s1 so1 c1 p1 : String) (pg1 : Nat) (s2 so2 c2 p2 : String) (pg2 : Nat),
      dashFree s1 → dashFree so1 → dashFree c1 → dashFree p1 →
      dashFree s2 → dashFree so2 → dashFree c2 → dashFree p2 →
      productsKey s1 so1 c1 p1 pg1 = productsKey s2 so2 c2 p2 pg2 →
      s1 = s2 ∧ so1 = so2 ∧ c1 = c2 ∧ p1 = p2 ∧ pg1 = pg2) ∧
    (∀ u1 u2 : String, myOrdersKey u1 = myOrdersKey u2 → u1 = u2) ∧
    (∀ i1 i2 : String, productKey i1 = productKey i2 → i1 = i2) ∧
    (∀ i1 i2 : String, orderKey i1 = orderKey i2 → i1 = i2) := by
  refine ⟨?_, ?_, ?_, ?_⟩
  · intro s1 so1 c1 p1 pg1 s2 so2 c2 p2 pg2 hs1 hso1 hc1 hp1 hs2 hso2 hc2 hp2 h
    have hd : (productsKey s1 so1 c1 p1 pg1).data = (productsKey s2 so2 c2 p2 pg2).data :=
      congrArg String.data h
    rw [productsKey_data, productsKey_data] at hd
    have h0 := List.append_cancel_left hd
    have h0' := List.cons.inj h0
    obtain ⟨hs, hrest1⟩ := append_sep_inj _ _ _ _ hs1 hs2 h0'.2
    obtain ⟨hso, hrest2⟩ := append_sep_inj _ _ _ _ hso1 hso2 hrest1
    obtain ⟨hc, hrest3⟩ := append_sep_inj _ _ _ _ hc1 hc2 hrest2
    obtain ⟨hp, hrest4⟩ := append_sep_inj _ _ _ _ hp1 hp2 hrest3
    exact ⟨String.ext hs, String.ext hso, String.ext hc, String.ext hp,
      natStr_inj pg1 pg2 (String.ext hrest4)⟩
  · intro u1 u2 h
    have hd := congrArg String.data h
    simp only [myOrdersKey, String.data_append] at hd
    exact String.ext (List.append_cancel_left hd)
  · intro i1 i2 h
    have hd := congrArg String.data h
    simp only [productKey, String.data_append] at hd
    exact String.ext (List.append_cancel_left hd)
  · intro i1 i2 h
    have hd := congrArg String.data h
    simp only [orderKey, String.data_append] at hd
    exact String.ext (List.append_cancel_left hd)

/-- C5 witness: dash-free parameters recovered from an equal pair of keys. -/
theorem C5_cache_key_builder_witness :
    ("a" : String) = "a" ∧ (2 : Nat) = 2 :=
  ⟨(C5_cache_key_builder.1 "a" "b" "c" "d" 2 "a" "b" "c" "d" 2
      (by decide) (by decide) (by decide) (by decide)
      (by decide) (by decide) (by decide) (by decide) rfl).1,
    (C5_cache_key_builder.1 "a" "b" "c" "d" 2 "a" "b" "c" "d" 2
      (by decide) (by decide) (by decide) (by decide)
      (by decide) (by decide) (by decide) (by decide) rfl).2.2.2.2⟩

end ECom
